import Mathlib

/-!
Shallow embedding of the CHAT repository's two server variants:
`src/server/server.js` (namespace `SJS`) and `src/unnamed/part_000`
(namespace `P0`).  Both are single-threaded WebSocket relay servers; each
inbound event (message, transport close, heartbeat tick) runs to completion
before the next, so every handler is embedded as a pure function from a
server state and an event to a new state together with the list of outbound
transport actions it performs, in order.

JavaScript data structures are embedded as follows:
* a `Map` is an association list where `set` replaces the first matching key
  in place (keeping its position) and appends otherwise, and `delete` removes
  the key — matching JS Map semantics on insertion order;
* a `Set` of sockets is a `List CId` of connection ids, where `add` appends
  when absent and `delete` filters;
* per-socket metadata (`meta` WeakMap in server.js, `ws._meta` in part_000)
  together with `readyState` and the heartbeat `isAlive` flag is a `Conn`
  record in a `List (CId × Conn)` table;
* `Date.now()` is an explicit `now : Nat` parameter (epoch milliseconds);
* `String(x || "d")` on an optional string field is `jsOr`, `.slice(0, n)`
  is `jsSlice`, `.trim()` is `jsTrim`;
* `ws.send`, `ws.close(code, reason)`, `ws.ping()` and `ws.terminate()`
  become `Out` actions collected in the result list.
-/

/-- Connection identifier standing for one `ws` socket object. -/
abbrev CId := Nat

/-- Per-socket data: the `meta` record (`room`, `name`), the transport
`readyState` (1 = OPEN), and the heartbeat `isAlive` flag. -/
structure Conn where
  room : Option String
  name : String
  ready : Nat
  isAlive : Bool
deriving DecidableEq

/-- Initial per-socket data installed by the connection handler:
`{ id: randomUUID(), room: null, name: "Anonymous" }`, open transport,
`ws.isAlive = true`. -/
def defMeta : Conn := ⟨none, "Anonymous", 1, true⟩

/-- Outbound wire payloads (the JSON objects passed to `JSON.stringify`). -/
inductive Msg
  | joined (room you : String)
  | error (reason : String)
  | system (text : String)
  | chat (name text : String) (ts : Nat)
deriving DecidableEq

/-- Outbound transport actions performed by a handler, in program order. -/
inductive Out
  | send (dst : CId) (m : Msg)
  | close (who : CId) (code : Nat) (reason : String)
  | ping (who : CId)
  | terminate (who : CId)
deriving DecidableEq

/-- Inbound wire messages after `safeJson`: a parsed object with a `type`
discriminator.  `other` covers unparsable input and unrecognized types,
which both handlers ignore. -/
inductive Inbound
  | join (room name : Option String)
  | msg (text : Option String)
  | other
deriving DecidableEq

/-- Events delivered to a connection's handlers: transport-level connect,
an inbound message, or transport-level close. -/
inductive Ev
  | connect
  | inbound (i : Inbound)
  | close
deriving DecidableEq

/-- Association-list lookup: JS `Map.prototype.get` (first matching key). -/
def alGet {α β : Type} [DecidableEq α] : List (α × β) → α → Option β
  | [], _ => none
  | (a, b) :: t, k => if a = k then some b else alGet t k

/-- Association-list update: JS `Map.prototype.set` — replace in place when
the key is present (keeping its position), append otherwise. -/
def alSet {α β : Type} [DecidableEq α] : List (α × β) → α → β → List (α × β)
  | [], k, v => [(k, v)]
  | (a, b) :: t, k, v => if a = k then (k, v) :: t else (a, b) :: alSet t k v

/-- Association-list removal: JS `Map.prototype.delete`. -/
def alDel {α β : Type} [DecidableEq α] : List (α × β) → α → List (α × β)
  | [], _ => []
  | (a, b) :: t, k => if a = k then alDel t k else (a, b) :: alDel t k

/-- JS `Set.prototype.add`: append when absent (sets preserve insertion
order). -/
def jsSetAdd (l : List CId) (c : CId) : List CId :=
  if c ∈ l then l else l ++ [c]

/-- JS `Set.prototype.delete`. -/
def jsSetDel (l : List CId) (c : CId) : List CId :=
  l.filter (fun x => x ≠ c)

/-- JS `String(x || "d")` for an optional string field: the empty string is
falsy, so both a missing field and `""` yield the default. -/
def jsOr (o : Option String) (d : String) : String :=
  match o with
  | none => d
  | some s => if s = "" then d else s

/-- JS `String.prototype.slice(0, n)`. -/
def jsSlice (s : String) (n : Nat) : String :=
  ⟨s.data.take n⟩

/-- JS `String.prototype.trim`: strip leading and trailing whitespace. -/
def jsTrim (s : String) : String :=
  ⟨((s.data.dropWhile Char.isWhitespace).reverse.dropWhile Char.isWhitespace).reverse⟩

/-- The `room` field of a socket's meta record, `none` when untracked. -/
def connRoom (conns : List (CId × Conn)) (c : CId) : Option String :=
  match alGet conns c with
  | some k => k.room
  | none => none

/-- Loop body of both variants' `broadcast`: send the payload to one room
member when its `readyState === 1` and it is not the excluded socket. -/
def sendTo (conns : List (CId × Conn)) (except : Option CId) (payload : Msg)
    (cl : CId) : Option Out :=
  match alGet conns cl with
  | some k => if k.ready = 1 ∧ some cl ≠ except then some (Out.send cl payload) else none
  | none => none

/-- Both variants' `broadcast(roomId, payload, exceptWs)`: deliver the
payload to every member of the room whose `readyState === 1`, except the
excluded socket; a missing room delivers nothing. -/
def broadcast (conns : List (CId × Conn)) (rooms : List (String × List CId))
    (roomId : String) (payload : Msg) (except : Option CId) : List Out :=
  match alGet rooms roomId with
  | none => []
  | some set => set.filterMap (sendTo conns except payload)

/-- The `if (!rooms.has(roomId)) rooms.set(roomId, new Set())` idiom of both
variants' join branches. -/
def ensureRoom (rooms : List (String × List CId)) (roomId : String) :
    List (String × List CId) :=
  if (alGet rooms roomId).isSome then rooms else alSet rooms roomId []

/-- The leave-old-room block of both variants' join branches: when the
socket's previous room is truthy (non-null, nonempty) and present in the
map, remove the socket from its set, deleting the room when the set becomes
empty.  No departure notice is broadcast here in either variant. -/
def leaveOld (rooms : List (String × List CId)) (oldRoom : Option String)
    (c : CId) : List (String × List CId) :=
  match oldRoom with
  | some old =>
    if old = "" then rooms
    else
      match alGet rooms old with
      | some oset =>
        let oset2 := jsSetDel oset c
        if oset2 = [] then alDel rooms old else alSet rooms old oset2
      | none => rooms
  | none => rooms

namespace SJS

/-- State of `src/server/server.js`: the `rooms` map (roomId to member set)
and the per-socket table (`meta` WeakMap plus transport fields). -/
structure State where
  rooms : List (String × List CId)
  conns : List (CId × Conn)
deriving DecidableEq

/-- The empty registry at process start. -/
def init : State := ⟨[], []⟩

/-- server.js `join` branch (message handler, `msg.type === "join"`).
Order of operations from the source: truncate room id and name; create the
room's set if absent and capture it; reject `room_full` with `close(1008)`
when the captured set has 2 or more members; otherwise remove the socket
from its previous room (JS truthiness: a `null` or `""` previous room is
skipped), deleting that room when it becomes empty; then `set.add(ws)` —
the captured set object, whose mutation is lost when the leave just deleted
the same key from the map; update meta; send the `joined` ack and broadcast
the join notice. -/
def joinStep (s : State) (c : CId) (room name? : Option String) : State × List Out :=
  let roomId := jsSlice (jsOr room "") 64
  let name := jsSlice (jsOr name? "Anonymous") 32
  let rooms1 := ensureRoom s.rooms roomId
  let set0 := (alGet rooms1 roomId).getD []
  if 2 ≤ set0.length then
    ({ s with rooms := rooms1 },
     [Out.send c (Msg.error "room_full"), Out.close c 1008 "Room full"])
  else
    let m0 := (alGet s.conns c).getD defMeta
    let rooms2 := leaveOld rooms1 m0.room c
    let rooms3 :=
      match alGet rooms2 roomId with
      | some cur => alSet rooms2 roomId (jsSetAdd cur c)
      | none => rooms2
    let conns2 := alSet s.conns c { m0 with room := some roomId, name := name }
    ({ rooms := rooms3, conns := conns2 },
     Out.send c (Msg.joined roomId name) ::
       broadcast conns2 rooms3 roomId (Msg.system (name ++ " 加入了房间")) (some c))

/-- server.js `msg` branch: drop when the socket has no (truthy) room, or
when the trimmed text is empty or longer than 2000; otherwise echo the chat
payload to the sender and broadcast it to the rest of the room. -/
def msgStep (s : State) (c : CId) (text? : Option String) (now : Nat) : State × List Out :=
  let m0 := (alGet s.conns c).getD defMeta
  match m0.room with
  | none => (s, [])
  | some r =>
    if r = "" then (s, [])
    else
      let text := jsTrim (jsOr text? "")
      if text = "" ∨ 2000 < text.length then (s, [])
      else
        let payload := Msg.chat m0.name text now
        (s, Out.send c payload :: broadcast s.conns s.rooms r payload (some c))

/-- server.js `close` handler: when the socket has a (truthy) room that is
in the map, remove it from the set; delete the room when the set becomes
empty, otherwise broadcast the departure notice (no excluded socket).  The
meta record is not cleared. -/
def closeStep (s : State) (c : CId) : State × List Out :=
  let m0 := (alGet s.conns c).getD defMeta
  match m0.room with
  | none => (s, [])
  | some r =>
    if r = "" then (s, [])
    else
      match alGet s.rooms r with
      | none => (s, [])
      | some set0 =>
        let set1 := jsSetDel set0 c
        if set1 = [] then ({ s with rooms := alDel s.rooms r }, [])
        else
          ({ s with rooms := alSet s.rooms r set1 },
           broadcast s.conns (alSet s.rooms r set1) r
             (Msg.system (m0.name ++ " 离开了房间")) none)

/-- server.js connection-scoped event dispatch: install fresh meta on
connect, route inbound messages by `type` (unknown types ignored), run the
close handler on transport close. -/
def handle (s : State) (c : CId) (e : Ev) (now : Nat) : State × List Out :=
  match e with
  | Ev.connect => ({ s with conns := alSet s.conns c defMeta }, [])
  | Ev.inbound (Inbound.join room name) => joinStep s c room name
  | Ev.inbound (Inbound.msg text) => msgStep s c text now
  | Ev.inbound Inbound.other => (s, [])
  | Ev.close => closeStep s c

/-- server.js `GET /api/rooms`: ids of rooms whose member set is nonempty,
in map order — no scope parameter, no sorting, no historical record. -/
def apiRooms (s : State) : List String :=
  (s.rooms.filter (fun p => decide (p.2 ≠ []))).map Prod.fst

end SJS

namespace P0

/-- State of `src/unnamed/part_000`: the live `rooms` map, the per-socket
table, the never-pruned historical `allRooms` set, and the `roomUpdated`
last-activity map. -/
structure State where
  rooms : List (String × List CId)
  conns : List (CId × Conn)
  allRooms : List String
  roomUpdated : List (String × Nat)
deriving DecidableEq

/-- The empty registry at process start. -/
def init : State := ⟨[], [], [], []⟩

/-- part_000 `touch(roomId)`: record the current time as the room's last
activity. -/
def touch (upd : List (String × Nat)) (roomId : String) (now : Nat) : List (String × Nat) :=
  alSet upd roomId now

/-- part_000 `join` branch.  Order of operations from the source: truncate
room id and name; reject `invalid_room` when the truncated id is empty
(connection stays open, state untouched); remove the socket from its
previous room, deleting that room when it becomes empty; create the target
room's set if absent; reject `room_full` with `close(1008)` when it has 2
or more members (the old room has already been left); otherwise add the
socket, update meta, record the room in `allRooms`, touch its activity,
send the `joined` ack and broadcast the join notice. -/
def joinStep (s : State) (c : CId) (room name? : Option String) (now : Nat) :
    State × List Out :=
  let roomId := jsSlice (jsOr room "") 64
  let name := jsSlice (jsOr name? "Anonymous") 32
  if roomId = "" then (s, [Out.send c (Msg.error "invalid_room")])
  else
    let m0 := (alGet s.conns c).getD defMeta
    let rooms2 := leaveOld s.rooms m0.room c
    let rooms3 := ensureRoom rooms2 roomId
    let set0 := (alGet rooms3 roomId).getD []
    if 2 ≤ set0.length then
      ({ s with rooms := rooms3 },
       [Out.send c (Msg.error "room_full"), Out.close c 1008 "Room full"])
    else
      let rooms4 := alSet rooms3 roomId (jsSetAdd set0 c)
      let conns2 := alSet s.conns c { m0 with room := some roomId, name := name }
      let all2 := if roomId ∈ s.allRooms then s.allRooms else s.allRooms ++ [roomId]
      ({ rooms := rooms4, conns := conns2, allRooms := all2, roomUpdated := touch s.roomUpdated roomId now },
       Out.send c (Msg.joined roomId name) ::
         broadcast conns2 rooms4 roomId (Msg.system (name ++ " 加入了房间")) (some c))

/-- part_000 `msg` branch: like server.js, plus `touch` on the room's
activity after delivery. -/
def msgStep (s : State) (c : CId) (text? : Option String) (now : Nat) : State × List Out :=
  let m0 := (alGet s.conns c).getD defMeta
  match m0.room with
  | none => (s, [])
  | some r =>
    if r = "" then (s, [])
    else
      let text := jsTrim (jsOr text? "")
      if text = "" ∨ 2000 < text.length then (s, [])
      else
        let payload := Msg.chat m0.name text now
        ({ s with roomUpdated := touch s.roomUpdated r now },
         Out.send c payload :: broadcast s.conns s.rooms r payload (some c))

/-- part_000 `close` handler: remove the socket from its room's set; delete
the room from the live map when empty (`allRooms` is kept), otherwise
broadcast the departure notice; touch the room's activity in either case.
The meta record is not cleared. -/
def closeStep (s : State) (c : CId) (now : Nat) : State × List Out :=
  let m0 := (alGet s.conns c).getD defMeta
  match m0.room with
  | none => (s, [])
  | some r =>
    if r = "" then (s, [])
    else
      match alGet s.rooms r with
      | none => (s, [])
      | some set0 =>
        let set1 := jsSetDel set0 c
        if set1 = [] then
          ({ s with rooms := alDel s.rooms r, roomUpdated := touch s.roomUpdated r now }, [])
        else
          ({ s with rooms := alSet s.rooms r set1, roomUpdated := touch s.roomUpdated r now },
           broadcast s.conns (alSet s.rooms r set1) r
             (Msg.system (m0.name ++ " 离开了房间")) none)

/-- part_000 connection-scoped event dispatch. -/
def handle (s : State) (c : CId) (e : Ev) (now : Nat) : State × List Out :=
  match e with
  | Ev.connect => ({ s with conns := alSet s.conns c defMeta }, [])
  | Ev.inbound (Inbound.join room name) => joinStep s c room name now
  | Ev.inbound (Inbound.msg text) => msgStep s c text now
  | Ev.inbound Inbound.other => (s, [])
  | Ev.close => closeStep s c now

/-- A room's last-activity key for sorting: `roomUpdated.get(r) || 0`. -/
def activityKey (upd : List (String × Nat)) (r : String) : Nat :=
  (alGet upd r).getD 0

/-- part_000 `GET /api/rooms?scope=active|all`: `all` lists the historical
set, anything else (including the `active` default) lists rooms with
nonempty member sets; the result is sorted by descending last activity
(missing activity counts as 0).  JS `Array.prototype.sort` is stable, so a
stable merge sort embeds it. -/
def snapshot (s : State) (scope? : Option String) : List String :=
  let scope := jsOr scope? "active"
  let base :=
    if scope = "all" then s.allRooms
    else (s.rooms.filter (fun p => decide (p.2 ≠ []))).map Prod.fst
  base.mergeSort
    (fun a b => decide (activityKey s.roomUpdated b ≤ activityKey s.roomUpdated a))

end P0

/-- Heartbeat tick shared by both variants (the 30-second interval): a
socket whose `isAlive` flag is false is terminated (abruptly, leaving the
tracked client set) and not pinged; every other socket has its flag set to
false and is sent a ping.  Returns the surviving client table and the
actions, in iteration order. -/
def hbTick (clients : List (CId × Conn)) : List (CId × Conn) × List Out :=
  (clients.filterMap (fun p =>
     if p.2.isAlive then some (p.1, { p.2 with isAlive := false }) else none),
   clients.map (fun p => if p.2.isAlive then Out.ping p.1 else Out.terminate p.1))

/-- Pong handler shared by both variants: `ws.on("pong", () => ws.isAlive =
true)`. -/
def hbPong (clients : List (CId × Conn)) (c : CId) : List (CId × Conn) :=
  clients.map (fun p => if p.1 = c then (p.1, { p.2 with isAlive := true }) else p)

/-- Capacity invariant of claim C1: every room set in the map holds at most
2 members. -/
def RoomCap2 (rooms : List (String × List CId)) : Prop :=
  ∀ r set, alGet rooms r = some set → set.length ≤ 2

/-- Forward membership consistency (the provable direction of claim C9's
bidirectional invariant): every member of a room's set has that room as its
meta `room` reference. -/
def Consistent1 (rooms : List (String × List CId)) (conns : List (CId × Conn)) : Prop :=
  ∀ r set c, alGet rooms r = some set → c ∈ set → connRoom conns c = some r

/-! ### Association-list and set lemmas -/

theorem alGet_alSet_self {α β : Type} [DecidableEq α] (l : List (α × β)) (k : α) (v : β) :
    alGet (alSet l k v) k = some v := by
  induction l with
  | nil => simp [alGet, alSet]
  | cons hd t ih =>
    obtain ⟨a, b⟩ := hd
    by_cases hk : a = k
    · simp [alSet, alGet, hk]
    · simp [alSet, alGet, hk, ih]

theorem alGet_alSet_ne {α β : Type} [DecidableEq α] (l : List (α × β)) (k k2 : α) (v : β)
    (h : k ≠ k2) : alGet (alSet l k v) k2 = alGet l k2 := by
  induction l with
  | nil => simp [alGet, alSet, h]
  | cons hd t ih =>
    obtain ⟨a, b⟩ := hd
    by_cases hk : a = k
    · subst hk; simp [alSet, alGet, h]
    · simp [alSet, alGet, hk, ih]

theorem alGet_alDel_self {α β : Type} [DecidableEq α] (l : List (α × β)) (k : α) :
    alGet (alDel l k) k = none := by
  induction l with
  | nil => simp [alGet, alDel]
  | cons hd t ih =>
    obtain ⟨a, b⟩ := hd
    by_cases hk : a = k
    · simpa [alDel, hk] using ih
    · simpa [alDel, alGet, hk] using ih

theorem alGet_alDel_ne {α β : Type} [DecidableEq α] (l : List (α × β)) (k k2 : α)
    (h : k ≠ k2) : alGet (alDel l k) k2 = alGet l k2 := by
  induction l with
  | nil => simp [alGet, alDel]
  | cons hd t ih =>
    obtain ⟨a, b⟩ := hd
    by_cases hk : a = k
    · subst hk
      have ha : a ≠ k2 := h
      simpa [alDel, alGet, ha] using ih
    · by_cases hk2 : a = k2
      · simp [alDel, alGet, hk, hk2, Ne.symm h]
      · simpa [alDel, alGet, hk, hk2] using ih

theorem mem_jsSetAdd {l : List CId} {c x : CId} :
    x ∈ jsSetAdd l c ↔ x ∈ l ∨ x = c := by
  by_cases h : c ∈ l
  · simp only [jsSetAdd, if_pos h]
    constructor
    · exact fun hx => Or.inl hx
    · rintro (hx | rfl)
      · exact hx
      · exact h
  · simp [jsSetAdd, if_neg h]

theorem length_jsSetAdd_le (l : List CId) (c : CId) :
    (jsSetAdd l c).length ≤ l.length + 1 := by
  by_cases h : c ∈ l <;> simp [jsSetAdd, h]

theorem mem_jsSetDel {l : List CId} {c x : CId} :
    x ∈ jsSetDel l c ↔ x ∈ l ∧ x ≠ c := by
  simp [jsSetDel, List.mem_filter]

theorem not_mem_jsSetDel_self (l : List CId) (c : CId) : c ∉ jsSetDel l c := by
  simp [mem_jsSetDel]

theorem length_jsSetDel_le (l : List CId) (c : CId) :
    (jsSetDel l c).length ≤ l.length :=
  List.length_filter_le _ l

/-! ### ensureRoom and leaveOld lemmas -/

theorem alGet_ensureRoom_self (rooms : List (String × List CId)) (r : String) :
    alGet (ensureRoom rooms r) r = some ((alGet rooms r).getD []) := by
  cases h : alGet rooms r <;> simp [ensureRoom, h, alGet_alSet_self]

theorem alGet_ensureRoom_ne (rooms : List (String × List CId)) (r r2 : String)
    (h : r ≠ r2) : alGet (ensureRoom rooms r) r2 = alGet rooms r2 := by
  cases h2 : alGet rooms r <;> simp [ensureRoom, h2, alGet_alSet_ne _ _ _ _ h]

theorem alGet_leaveOld_ne (rooms : List (String × List CId)) (o : Option String)
    (c : CId) (r : String) (h : o ≠ some r) :
    alGet (leaveOld rooms o c) r = alGet rooms r := by
  match o with
  | none => rfl
  | some old =>
    have hor : old ≠ r := fun he => h (by rw [he])
    by_cases he : old = ""
    · simp [leaveOld, he]
    · cases hg : alGet rooms old with
      | none => simp [leaveOld, he, hg]
      | some oset =>
        by_cases hd : jsSetDel oset c = []
        · simp [leaveOld, he, hg, hd, alGet_alDel_ne _ _ _ hor]
        · simp [leaveOld, he, hg, hd, alGet_alSet_ne _ _ _ _ hor]

theorem alGet_leaveOld_self (rooms : List (String × List CId)) (r : String)
    (c : CId) (oset : List CId) (hne : r ≠ "") (hget : alGet rooms r = some oset) :
    alGet (leaveOld rooms (some r) c) r
      = if jsSetDel oset c = [] then none else some (jsSetDel oset c) := by
  by_cases hd : jsSetDel oset c = []
  · simp [leaveOld, hne, hget, hd, alGet_alDel_self]
  · simp [leaveOld, hne, hget, hd, alGet_alSet_self]

theorem leaveOld_sets_shrink (rooms : List (String × List CId)) (o : Option String)
    (c : CId) (r : String) (set : List CId)
    (h : alGet (leaveOld rooms o c) r = some set) :
    ∃ set1, alGet rooms r = some set1 ∧ (set = set1 ∨ set = jsSetDel set1 c) := by
  match o with
  | none => exact ⟨set, h, Or.inl rfl⟩
  | some old =>
    by_cases he : old = ""
    · simp only [leaveOld, he, if_pos rfl] at h
      exact ⟨set, h, Or.inl rfl⟩
    · cases hg : alGet rooms old with
      | none =>
        simp only [leaveOld, if_neg he, hg] at h
        exact ⟨set, h, Or.inl rfl⟩
      | some oset =>
        have hlo : leaveOld rooms (some old) c
            = if jsSetDel oset c = [] then alDel rooms old
              else alSet rooms old (jsSetDel oset c) := by
          simp [leaveOld, he, hg]
        by_cases hor : old = r
        · subst hor
          by_cases hd : jsSetDel oset c = []
          · rw [hlo, if_pos hd, alGet_alDel_self] at h
            exact absurd h (by simp)
          · rw [hlo, if_neg hd, alGet_alSet_self] at h
            exact ⟨oset, hg, Or.inr (by injection h with h2; exact h2.symm)⟩
        · by_cases hd : jsSetDel oset c = []
          · rw [hlo, if_pos hd, alGet_alDel_ne _ _ _ hor] at h
            exact ⟨set, h, Or.inl rfl⟩
          · rw [hlo, if_neg hd, alGet_alSet_ne _ _ _ _ hor] at h
            exact ⟨set, h, Or.inl rfl⟩

/-! ### connRoom, broadcast and capacity lemmas -/

theorem connRoom_eq (conns : List (CId × Conn)) (c : CId) :
    connRoom conns c = ((alGet conns c).getD defMeta).room := by
  cases h : alGet conns c <;> simp [connRoom, h, defMeta]

theorem sendTo_eq_some {conns : List (CId × Conn)} {exc : Option CId} {payload : Msg}
    {cl : CId} {o : Out} :
    sendTo conns exc payload cl = some o ↔
      ∃ k, alGet conns cl = some k ∧ k.ready = 1 ∧ some cl ≠ exc ∧ o = Out.send cl payload := by
  cases h : alGet conns cl with
  | none => simp [sendTo, h]
  | some k =>
    by_cases hc : k.ready = 1 ∧ some cl ≠ exc
    · rw [show sendTo conns exc payload cl = some (Out.send cl payload) by
        simp [sendTo, h, hc]]
      constructor
      · rintro h2
        injection h2 with h2
        exact ⟨k, rfl, hc.1, hc.2, h2.symm⟩
      · rintro ⟨k2, hk2, h1, h2, rfl⟩
        rfl
    · rw [show sendTo conns exc payload cl = none by simp [sendTo, h, hc]]
      constructor
      · rintro ⟨⟩
      · rintro ⟨k2, hk2, h1, h2, rfl⟩
        injection hk2 with hk2
        exact absurd ⟨by rw [← hk2] at h1; exact h1, h2⟩ hc

theorem mem_broadcast {conns : List (CId × Conn)} {rooms : List (String × List CId)}
    {r : String} {payload : Msg} {exc : Option CId} {o : Out} :
    o ∈ broadcast conns rooms r payload exc ↔
      ∃ set cl k, alGet rooms r = some set ∧ cl ∈ set ∧ alGet conns cl = some k ∧
        k.ready = 1 ∧ some cl ≠ exc ∧ o = Out.send cl payload := by
  cases hr : alGet rooms r with
  | none => simp [broadcast, hr]
  | some set =>
    simp only [broadcast, hr, List.mem_filterMap]
    constructor
    · rintro ⟨cl, hcl, hs⟩
      obtain ⟨k, hk, h1, h2, rfl⟩ := sendTo_eq_some.mp hs
      exact ⟨set, cl, k, rfl, hcl, hk, h1, h2, rfl⟩
    · rintro ⟨set2, cl, k, hset2, hcl, hk, h1, h2, rfl⟩
      injection hset2 with hset2
      subst hset2
      exact ⟨cl, hcl, sendTo_eq_some.mpr ⟨k, hk, h1, h2, rfl⟩⟩

theorem roomCap2_alSet {rooms : List (String × List CId)} {k : String} {v : List CId}
    (h : RoomCap2 rooms) (hv : v.length ≤ 2) : RoomCap2 (alSet rooms k v) := by
  intro r set hr
  by_cases hk : k = r
  · subst hk
    rw [alGet_alSet_self] at hr
    injection hr with hr
    subst hr; exact hv
  · rw [alGet_alSet_ne _ _ _ _ hk] at hr
    exact h r set hr

theorem roomCap2_alDel {rooms : List (String × List CId)} {k : String}
    (h : RoomCap2 rooms) : RoomCap2 (alDel rooms k) := by
  intro r set hr
  by_cases hk : k = r
  · subst hk; rw [alGet_alDel_self] at hr; cases hr
  · rw [alGet_alDel_ne _ _ _ hk] at hr
    exact h r set hr

theorem roomCap2_ensureRoom {rooms : List (String × List CId)} {r : String}
    (h : RoomCap2 rooms) : RoomCap2 (ensureRoom rooms r) := by
  intro r2 set hr
  by_cases hk : r = r2
  · rw [hk, alGet_ensureRoom_self] at hr
    injection hr with hr
    cases hg : alGet rooms r2 with
    | none =>
      rw [hg, Option.getD_none] at hr
      subst hr; simp
    | some v =>
      rw [hg, Option.getD_some] at hr
      subst hr; exact h r2 v hg
  · rw [alGet_ensureRoom_ne _ _ _ hk] at hr
    exact h r2 set hr

theorem roomCap2_leaveOld {rooms : List (String × List CId)} {o : Option String} {c : CId}
    (h : RoomCap2 rooms) : RoomCap2 (leaveOld rooms o c) := by
  intro r set hr
  obtain ⟨set1, hget, heq | heq⟩ := leaveOld_sets_shrink rooms o c r set hr
  · rw [heq]; exact h r set1 hget
  · rw [heq]
    exact le_trans (length_jsSetDel_le set1 c) (h r set1 hget)

/-! ### State-shape lemmas for the message and close handlers -/

theorem SJS.msgStep_fst (s : SJS.State) (c : CId) (t : Option String) (now : Nat) :
    (SJS.msgStep s c t now).1 = s := by
  unfold SJS.msgStep
  simp only []
  split
  · rfl
  · split_ifs <;> rfl

theorem P0.msgStep_rooms (s : P0.State) (c : CId) (t : Option String) (now : Nat) :
    (P0.msgStep s c t now).1.rooms = s.rooms := by
  unfold P0.msgStep
  simp only []
  split
  · rfl
  · split_ifs <;> rfl

theorem P0.msgStep_conns (s : P0.State) (c : CId) (t : Option String) (now : Nat) :
    (P0.msgStep s c t now).1.conns = s.conns := by
  unfold P0.msgStep
  simp only []
  split
  · rfl
  · split_ifs <;> rfl

theorem P0.msgStep_allRooms (s : P0.State) (c : CId) (t : Option String) (now : Nat) :
    (P0.msgStep s c t now).1.allRooms = s.allRooms := by
  unfold P0.msgStep
  simp only []
  split
  · rfl
  · split_ifs <;> rfl

/-! ### Capacity preservation (claim C1's invariant) -/

theorem SJS.cap2_joinStep_sjs (s : SJS.State) (c : CId) (room name : Option String)
    (h : RoomCap2 s.rooms) : RoomCap2 (SJS.joinStep s c room name).1.rooms := by
  unfold SJS.joinStep
  simp only []
  split
  · exact roomCap2_ensureRoom h
  · rename_i hfull
    have h1 : RoomCap2 (ensureRoom s.rooms (jsSlice (jsOr room "") 64)) :=
      roomCap2_ensureRoom h
    have h2 : RoomCap2 (leaveOld (ensureRoom s.rooms (jsSlice (jsOr room "") 64))
        ((alGet s.conns c).getD defMeta).room c) := roomCap2_leaveOld h1
    split
    · rename_i cur hcur
      apply roomCap2_alSet h2
      obtain ⟨set1, hget1, hcc⟩ := leaveOld_sets_shrink _ _ _ _ _ hcur
      rw [alGet_ensureRoom_self] at hget1
      injection hget1 with hget1
      have hs1 : set1.length ≤ 1 := by
        rw [alGet_ensureRoom_self, Option.getD_some] at hfull
        rw [← hget1]
        omega
      have hcl : cur.length ≤ 1 := by
        rcases hcc with rfl | rfl
        · exact hs1
        · exact le_trans (length_jsSetDel_le _ _) hs1
      have := length_jsSetAdd_le cur c
      omega
    · exact h2

theorem P0.cap2_joinStep (s : P0.State) (c : CId) (room name : Option String) (now : Nat)
    (h : RoomCap2 s.rooms) : RoomCap2 (P0.joinStep s c room name now).1.rooms := by
  unfold P0.joinStep
  simp only []
  split
  · exact h
  · have h3 : RoomCap2 (ensureRoom
        (leaveOld s.rooms ((alGet s.conns c).getD defMeta).room c)
        (jsSlice (jsOr room "") 64)) :=
      roomCap2_ensureRoom (roomCap2_leaveOld h)
    split
    · exact h3
    · rename_i hfull
      apply roomCap2_alSet h3
      have := length_jsSetAdd_le ((alGet (ensureRoom
        (leaveOld s.rooms ((alGet s.conns c).getD defMeta).room c)
        (jsSlice (jsOr room "") 64)) (jsSlice (jsOr room "") 64)).getD []) c
      omega

theorem SJS.cap2_closeStep_sjs (s : SJS.State) (c : CId)
    (h : RoomCap2 s.rooms) : RoomCap2 (SJS.closeStep s c).1.rooms := by
  unfold SJS.closeStep
  simp only []
  split
  · exact h
  · split
    · exact h
    · split
      · exact h
      · rename_i set0 hset0
        split
        · exact roomCap2_alDel h
        · apply roomCap2_alSet h
          exact le_trans (length_jsSetDel_le set0 c) (h _ set0 hset0)

theorem P0.cap2_closeStep (s : P0.State) (c : CId) (now : Nat)
    (h : RoomCap2 s.rooms) : RoomCap2 (P0.closeStep s c now).1.rooms := by
  unfold P0.closeStep
  simp only []
  split
  · exact h
  · split
    · exact h
    · split
      · exact h
      · rename_i set0 hset0
        split
        · exact roomCap2_alDel h
        · apply roomCap2_alSet h
          exact le_trans (length_jsSetDel_le set0 c) (h _ set0 hset0)

theorem SJS.cap2_handle_sjs (s : SJS.State) (c : CId) (e : Ev) (now : Nat)
    (h : RoomCap2 s.rooms) : RoomCap2 (SJS.handle s c e now).1.rooms := by
  cases e with
  | connect => exact h
  | close => exact SJS.cap2_closeStep_sjs s c h
  | inbound i =>
    cases i with
    | join room name => exact SJS.cap2_joinStep_sjs s c room name h
    | msg t =>
      show RoomCap2 (SJS.msgStep s c t now).1.rooms
      rw [SJS.msgStep_fst]
      exact h
    | other => exact h

theorem P0.cap2_handle (s : P0.State) (c : CId) (e : Ev) (now : Nat)
    (h : RoomCap2 s.rooms) : RoomCap2 (P0.handle s c e now).1.rooms := by
  cases e with
  | connect => exact h
  | close => exact P0.cap2_closeStep s c now h
  | inbound i =>
    cases i with
    | join room name => exact P0.cap2_joinStep s c room name now h
    | msg t =>
      show RoomCap2 (P0.msgStep s c t now).1.rooms
      rw [P0.msgStep_rooms]
      exact h
    | other => exact h

/-! ### Forward membership consistency (claim C9) -/

theorem connRoom_alSet_self (conns : List (CId × Conn)) (c : CId) (m : Conn) :
    connRoom (alSet conns c m) c = m.room := by
  unfold connRoom
  rw [alGet_alSet_self]

theorem connRoom_alSet_ne (conns : List (CId × Conn)) (c x : CId) (m : Conn)
    (h : c ≠ x) : connRoom (alSet conns c m) x = connRoom conns x := by
  unfold connRoom
  rw [alGet_alSet_ne _ _ _ _ h]

theorem cons1_leaveOld {rooms : List (String × List CId)} {conns : List (CId × Conn)}
    {o : Option String} {c : CId} (h : Consistent1 rooms conns) :
    Consistent1 (leaveOld rooms o c) conns := by
  intro r set x hget hx
  obtain ⟨set1, hget1, heq | heq⟩ := leaveOld_sets_shrink rooms o c r set hget
  · exact h r set1 x hget1 (heq ▸ hx)
  · exact h r set1 x hget1 (mem_jsSetDel.mp (heq ▸ hx)).1

theorem cons1_ensureRoom {rooms : List (String × List CId)} {conns : List (CId × Conn)}
    {r : String} (h : Consistent1 rooms conns) :
    Consistent1 (ensureRoom rooms r) conns := by
  intro r2 set x hget hx
  by_cases hk : r = r2
  · rw [hk, alGet_ensureRoom_self] at hget
    injection hget with hget
    cases hg : alGet rooms r2 with
    | none =>
      rw [hg, Option.getD_none] at hget
      subst hget; cases hx
    | some v =>
      rw [hg, Option.getD_some] at hget
      subst hget; exact h r2 v x hg hx
  · rw [alGet_ensureRoom_ne _ _ _ hk] at hget
    exact h r2 set x hget hx

theorem leaveOld_none {rooms : List (String × List CId)} {o : Option String} {c : CId}
    {r : String} (h : alGet rooms r = none) : alGet (leaveOld rooms o c) r = none := by
  cases hh : alGet (leaveOld rooms o c) r with
  | none => rfl
  | some set =>
    obtain ⟨set1, hget1, _⟩ := leaveOld_sets_shrink _ _ _ _ _ hh
    rw [h] at hget1
    cases hget1

theorem leaveOld_empty_skip (rooms : List (String × List CId)) (c : CId) :
    leaveOld rooms (some "") c = rooms := by
  simp [leaveOld]

theorem P0.cons1_joinStep (s : P0.State) (c : CId) (room name : Option String) (now : Nat)
    (h : Consistent1 s.rooms s.conns) (hnr : alGet s.rooms "" = none) :
    Consistent1 (P0.joinStep s c room name now).1.rooms
      (P0.joinStep s c room name now).1.conns := by
  unfold P0.joinStep
  simp only []
  split
  · exact h
  · rename_i hrid
    split
    · exact cons1_ensureRoom (cons1_leaveOld h)
    · rename_i hfull
      intro r set x hget hx
      by_cases hrr : jsSlice (jsOr room "") 64 = r
      · -- membership in the target room
        rw [hrr, alGet_alSet_self] at hget
        injection hget with hget
        subst hget
        by_cases hxc : x = c
        · subst hxc
          rw [connRoom_alSet_self, ← hrr]
        · have hcx : c ≠ x := fun he => hxc he.symm
          rw [connRoom_alSet_ne _ _ _ _ hcx]
          rcases mem_jsSetAdd.mp hx with hx0 | hx0
          · -- x was already in the target room before the add
            rw [← hrr] at hx0
            cases hc2 : alGet (leaveOld s.rooms ((alGet s.conns c).getD defMeta).room c)
                (jsSlice (jsOr room "") 64) with
            | none =>
              rw [alGet_ensureRoom_self, hc2, Option.getD_some, Option.getD_none] at hx0
              cases hx0
            | some s2 =>
              rw [alGet_ensureRoom_self, hc2, Option.getD_some, Option.getD_some] at hx0
              obtain ⟨set1, hget1, heq | heq⟩ :=
                leaveOld_sets_shrink _ _ _ _ _ hc2
              · rw [← hrr]
                exact h _ set1 x hget1 (heq ▸ hx0)
              · rw [← hrr]
                exact h _ set1 x hget1 (mem_jsSetDel.mp (heq ▸ hx0)).1
          · exact absurd hx0 hxc
      · -- membership in some other room
        rw [alGet_alSet_ne _ _ _ _ hrr, alGet_ensureRoom_ne _ _ _ hrr] at hget
        have hrne : r ≠ "" := by
          intro he
          obtain ⟨set1, hget1, _⟩ := leaveOld_sets_shrink _ _ _ _ _ hget
          rw [he, hnr] at hget1
          cases hget1
        by_cases hmo : ((alGet s.conns c).getD defMeta).room = some r
        · -- the joining socket's old room is exactly r: it has been removed
          rw [hmo] at hget
          cases hg : alGet s.rooms r with
          | none =>
            rw [leaveOld_none hg] at hget
            cases hget
          | some oset =>
            rw [alGet_leaveOld_self s.rooms r c oset hrne hg] at hget
            by_cases hd : jsSetDel oset c = []
            · rw [if_pos hd] at hget; cases hget
            · rw [if_neg hd] at hget
              injection hget with hget
              subst hget
              have hxd := mem_jsSetDel.mp hx
              have hcx : c ≠ x := fun he => hxd.2 he.symm
              rw [connRoom_alSet_ne _ _ _ _ hcx]
              exact h r oset x hg hxd.1
        · -- r is not the joining socket's old room: untouched
          rw [alGet_leaveOld_ne _ _ _ _ hmo] at hget
          have hcr := h r set x hget hx
          have hcx : c ≠ x := by
            intro he
            rw [← he, connRoom_eq] at hcr
            exact hmo hcr
          rw [connRoom_alSet_ne _ _ _ _ hcx]
          exact hcr

theorem P0.cons1_closeStep (s : P0.State) (c : CId) (now : Nat)
    (h : Consistent1 s.rooms s.conns) :
    Consistent1 (P0.closeStep s c now).1.rooms (P0.closeStep s c now).1.conns := by
  unfold P0.closeStep
  simp only []
  split
  · exact h
  · rename_i r hmr
    split
    · exact h
    · split
      · exact h
      · rename_i set0 hset0
        split
        · -- room deleted
          intro r2 set x hget hx
          by_cases hk : r = r2
          · rw [← hk, alGet_alDel_self] at hget; cases hget
          · rw [alGet_alDel_ne _ _ _ hk] at hget
            exact h r2 set x hget hx
        · -- socket removed from the set
          intro r2 set x hget hx
          by_cases hk : r = r2
          · rw [← hk, alGet_alSet_self] at hget
            injection hget with hget
            subst hget
            rw [hk] at hset0
            exact h r2 set0 x hset0 (mem_jsSetDel.mp hx).1
          · rw [alGet_alSet_ne _ _ _ _ hk] at hget
            exact h r2 set x hget hx

theorem leaveOld_nullRoom (rooms : List (String × List CId)) (c : CId) :
    leaveOld rooms none c = rooms := rfl

theorem P0.noEmpty_joinStep (s : P0.State) (c : CId) (room name : Option String)
    (now : Nat) (hnr : alGet s.rooms "" = none) :
    alGet (P0.joinStep s c room name now).1.rooms "" = none := by
  unfold P0.joinStep
  simp only []
  split
  · exact hnr
  · rename_i hrid
    have hne3 : alGet (ensureRoom
        (leaveOld s.rooms ((alGet s.conns c).getD defMeta).room c)
        (jsSlice (jsOr room "") 64)) "" = none := by
      rw [alGet_ensureRoom_ne _ _ _ hrid]
      exact leaveOld_none hnr
    split
    · exact hne3
    · rw [alGet_alSet_ne _ _ _ _ hrid]
      exact hne3

theorem P0.noEmpty_closeStep (s : P0.State) (c : CId) (now : Nat)
    (hnr : alGet s.rooms "" = none) :
    alGet (P0.closeStep s c now).1.rooms "" = none := by
  unfold P0.closeStep
  simp only []
  split
  · exact hnr
  · rename_i r hmr
    split
    · exact hnr
    · rename_i hre
      split
      · exact hnr
      · rename_i set0 hset0
        split
        · rw [alGet_alDel_ne _ _ _ hre]
          exact hnr
        · rw [alGet_alSet_ne _ _ _ _ hre]
          exact hnr

/-! ### Broadcast counting lemmas (claims C5, C6) -/

theorem length_filterMap_le_one_of_mem_none {α β : Type} (f : α → Option β)
    (l : List α) (c : α) (hc : c ∈ l) (hf : f c = none) (hl : l.length ≤ 2) :
    (l.filterMap f).length ≤ 1 := by
  cases l with
  | nil => cases hc
  | cons a t =>
    cases t with
    | nil =>
      have hca : c = a := by simpa using hc
      subst hca
      simp [List.filterMap_cons, hf]
    | cons b t2 =>
      cases t2 with
      | nil =>
        rcases (by simpa using hc : c = a ∨ c = b) with rfl | rfl
        · cases hb : f b <;> simp [List.filterMap_cons, hf, hb]
        · cases ha : f a <;> simp [List.filterMap_cons, ha, hf]
      | cons d t3 =>
        exfalso
        simp only [List.length_cons] at hl
        omega

theorem sendTo_self_none (conns : List (CId × Conn)) (payload : Msg) (c : CId) :
    sendTo conns (some c) payload c = none := by
  cases hg : alGet conns c <;> simp [sendTo, hg]

theorem length_broadcast_le_one {conns : List (CId × Conn)}
    {rooms : List (String × List CId)} {r : String} {payload : Msg} {c : CId}
    {set : List CId} (hset : alGet rooms r = some set) (hc : c ∈ set)
    (hlen : set.length ≤ 2) :
    (broadcast conns rooms r payload (some c)).length ≤ 1 := by
  simp only [broadcast, hset]
  exact length_filterMap_le_one_of_mem_none _ _ c hc (sendTo_self_none conns payload c) hlen

theorem send_self_not_mem_broadcast {conns : List (CId × Conn)}
    {rooms : List (String × List CId)} {r : String} {payload payload2 : Msg} {c : CId} :
    Out.send c payload ∉ broadcast conns rooms r payload2 (some c) := by
  intro hmem
  obtain ⟨set, cl, k, _, _, _, _, hne, heq⟩ := mem_broadcast.mp hmem
  injection heq with heq1 heq2
  exact hne (by rw [heq1])

/-! ### Key-uniqueness and heartbeat lemmas (claim C8) -/

theorem nodup_keys_eq {α β : Type} [DecidableEq α] {l : List (α × β)}
    (h : (l.map Prod.fst).Nodup) {c : α} {a b : β}
    (ha : (c, a) ∈ l) (hb : (c, b) ∈ l) : a = b := by
  induction l with
  | nil => cases ha
  | cons hd t ih =>
    have hnd := h
    rw [List.map_cons, List.nodup_cons] at hnd
    rcases List.mem_cons.mp ha with ha1 | ha2
    · rcases List.mem_cons.mp hb with hb1 | hb2
      · rw [← ha1] at hb1
        injection hb1 with h1 h2
        exact h2.symm
      · exfalso
        have hcm : c ∈ t.map Prod.fst := List.mem_map.mpr ⟨(c, b), hb2, rfl⟩
        rw [← ha1] at hnd
        exact hnd.1 hcm
    · rcases List.mem_cons.mp hb with hb1 | hb2
      · exfalso
        have hcm : c ∈ t.map Prod.fst := List.mem_map.mpr ⟨(c, a), ha2, rfl⟩
        rw [← hb1] at hnd
        exact hnd.1 hcm
      · exact ih hnd.2 ha2 hb2

theorem hbTick_fst_flags (clients : List (CId × Conn)) :
    ∀ q ∈ (hbTick clients).1, q.2.isAlive = false := by
  intro q hq
  simp only [hbTick, List.mem_filterMap] at hq
  obtain ⟨p, _, hcond⟩ := hq
  cases hal : p.2.isAlive
  · rw [hal] at hcond
    simp at hcond
  · rw [hal] at hcond
    simp only [if_true] at hcond
    injection hcond with hcond
    rw [← hcond]

theorem hbTick_twice_empty (clients : List (CId × Conn)) :
    (hbTick (hbTick clients).1).1 = [] := by
  have hflags := hbTick_fst_flags clients
  apply List.filterMap_eq_nil_iff.mpr
  intro p hp
  rw [hflags p hp]
  simp

/-- C2 (amended): in the part_000 variant, a join whose room id truncates to
the empty string is answered with a single invalid_room error payload and
nothing else: the state is completely unchanged (so the connection keeps
whatever membership it had and stays Unjoined if it was) and no close is
issued, so the connection remains open.  The server.js variant has no such
check (see the counterexample). -/
theorem C2_invalid_room_part000 (s : P0.State) (c : CId) (room name : Option String)
    (now : Nat) (h : jsSlice (jsOr room "") 64 = "") :
    P0.handle s c (Ev.inbound (Inbound.join room name)) now
      = (s, [Out.send c (Msg.error "invalid_room")]) := by
  show P0.joinStep s c room name now = _
  unfold P0.joinStep
  simp [h]

/-- C2 witness: a fresh connection joining with an absent room field gets
invalid_room and the registry is untouched. -/
theorem C2_witness :
    P0.handle ⟨[], [(0, defMeta)], [], []⟩ 0 (Ev.inbound (Inbound.join none none)) 0
      = (⟨[], [(0, defMeta)], [], []⟩, [Out.send 0 (Msg.error "invalid_room")]) :=
  C2_invalid_room_part000 ⟨[], [(0, defMeta)], [], []⟩ 0 none none 0 (by decide)

/-- C2 counterexample: in server.js a join whose room id truncates to empty
is not rejected: the connection is admitted to the room with empty id, gets
a joined ack (not invalid_room), and the registry changes. -/
theorem C2_counterexample :
    SJS.handle ⟨[], [(0, defMeta)]⟩ 0 (Ev.inbound (Inbound.join (some "") none)) 0
      = (⟨[("", [0])], [(0, ⟨some "", "Anonymous", 1, true⟩)]⟩,
         [Out.send 0 (Msg.joined "" "Anonymous")]) := by decide

/-- C3 (amended): in the server.js variant the room_full rejection is atomic:
the handler returns with the state exactly as it was (the connection keeps
its previous membership and room reference), emitting only the error payload
and the 1008 close.  In the part_000 variant the connection has already been
removed from its old room before the capacity check (see the
counterexample). -/
theorem C3_full_rejection_atomic_serverjs (s : SJS.State) (c : CId)
    (room name : Option String) (now : Nat) (set0 : List CId)
    (hget : alGet s.rooms (jsSlice (jsOr room "") 64) = some set0)
    (hlen : 2 ≤ set0.length) :
    SJS.handle s c (Ev.inbound (Inbound.join room name)) now
      = (s, [Out.send c (Msg.error "room_full"), Out.close c 1008 "Room full"]) := by
  show SJS.joinStep s c room name = _
  unfold SJS.joinStep
  simp only []
  have he : ensureRoom s.rooms (jsSlice (jsOr room "") 64) = s.rooms := by
    unfold ensureRoom
    rw [hget]
    rfl
  rw [he, hget]
  simp [hlen]

/-- C3 witness: a connection in room a joining the full room b is rejected
with state unchanged in server.js. -/
theorem C3_witness :
    SJS.handle ⟨[("a", [1]), ("b", [2, 3])],
        [(1, ⟨some "a", "Alice", 1, true⟩)]⟩ 1
      (Ev.inbound (Inbound.join (some "b") none)) 0
      = (⟨[("a", [1]), ("b", [2, 3])], [(1, ⟨some "a", "Alice", 1, true⟩)]⟩,
         [Out.send 1 (Msg.error "room_full"), Out.close 1 1008 "Room full"]) :=
  C3_full_rejection_atomic_serverjs _ 1 (some "b") none 0 [2, 3] (by decide) (by decide)

/-- C3 counterexample: in part_000, connection 1 (sole member of room a)
joins the full room b; it is rejected with room_full and closed, yet room a
has already been destroyed (1 was removed and the room retired) while its
room reference still says a — its membership is not what it was before. -/
theorem C3_counterexample :
    (P0.handle ⟨[("a", [1]), ("b", [2, 3])],
        [(1, ⟨some "a", "Alice", 1, true⟩), (2, ⟨some "b", "Bob", 1, true⟩),
         (3, ⟨some "b", "Cid", 1, true⟩)], ["a", "b"], []⟩ 1
        (Ev.inbound (Inbound.join (some "b") none)) 0).2
      = [Out.send 1 (Msg.error "room_full"), Out.close 1 1008 "Room full"]
    ∧ alGet (P0.handle ⟨[("a", [1]), ("b", [2, 3])],
        [(1, ⟨some "a", "Alice", 1, true⟩), (2, ⟨some "b", "Bob", 1, true⟩),
         (3, ⟨some "b", "Cid", 1, true⟩)], ["a", "b"], []⟩ 1
        (Ev.inbound (Inbound.join (some "b") none)) 0).1.rooms "a" = none
    ∧ connRoom (P0.handle ⟨[("a", [1]), ("b", [2, 3])],
        [(1, ⟨some "a", "Alice", 1, true⟩), (2, ⟨some "b", "Bob", 1, true⟩),
         (3, ⟨some "b", "Cid", 1, true⟩)], ["a", "b"], []⟩ 1
        (Ev.inbound (Inbound.join (some "b") none)) 0).1.conns 1 = some "a" := by
  decide

/-- C4 (amended): in part_000, when a connection joined to room A sends a
join for a different nonempty room B, the leave transition for A runs before
the capacity check on B: the connection is removed from A's member set and A
is retired from the active map when its set becomes empty — this holds even
when the join to B is then rejected as full.  However, no departure notice
is broadcast to A's remaining members: the only system payload a join can
emit is the join notice for B. -/
theorem C4_leave_old_before_capacity_part000 (s : P0.State) (c : CId)
    (room name : Option String) (now : Nat) (A : String) (oA : List CId)
    (hc : connRoom s.conns c = some A) (hA : A ≠ "")
    (hgetA : alGet s.rooms A = some oA)
    (hrid : jsSlice (jsOr room "") 64 ≠ "")
    (hne : jsSlice (jsOr room "") 64 ≠ A) :
    alGet (P0.handle s c (Ev.inbound (Inbound.join room name)) now).1.rooms A
      = (if jsSetDel oA c = [] then none else some (jsSetDel oA c))
    ∧ ∀ x t2, Out.send x (Msg.system t2) ∈
        (P0.handle s c (Ev.inbound (Inbound.join room name)) now).2 →
        t2 = jsSlice (jsOr name "Anonymous") 32 ++ " 加入了房间" := by
  have hmo : ((alGet s.conns c).getD defMeta).room = some A := by
    rw [← connRoom_eq]
    exact hc
  constructor
  · show alGet (P0.joinStep s c room name now).1.rooms A = _
    unfold P0.joinStep
    simp only []
    rw [if_neg hrid, hmo]
    split
    · rw [alGet_ensureRoom_ne _ _ _ hne]
      exact alGet_leaveOld_self s.rooms A c oA hA hgetA
    · rw [alGet_alSet_ne _ _ _ _ hne, alGet_ensureRoom_ne _ _ _ hne]
      exact alGet_leaveOld_self s.rooms A c oA hA hgetA
  · show ∀ x t2, Out.send x (Msg.system t2) ∈ (P0.joinStep s c room name now).2 → _
    intro x t2 hmem
    unfold P0.joinStep at hmem
    simp only [] at hmem
    rw [if_neg hrid, hmo] at hmem
    revert hmem
    split
    · intro hmem
      simp at hmem
    · intro hmem
      rcases List.mem_cons.mp hmem with h1 | h1
      · cases h1
      · obtain ⟨set2, cl, k, _, _, _, _, _, heq⟩ := mem_broadcast.mp h1
        simp only [Out.send.injEq, Msg.system.injEq] at heq
        exact heq.2

/-- C4 witness: connection 1 leaves room a (leaving member 2 behind) when it
joins room b, and the only system payload emitted is the join notice. -/
theorem C4_witness :
    alGet (P0.handle ⟨[("a", [1, 2])],
        [(1, ⟨some "a", "Alice", 1, true⟩), (2, ⟨some "a", "Bob", 1, true⟩)],
        ["a"], []⟩ 1 (Ev.inbound (Inbound.join (some "b") (some "Alice"))) 7).1.rooms "a"
      = (if jsSetDel [1, 2] 1 = [] then none else some (jsSetDel [1, 2] 1))
    ∧ ∀ x t2, Out.send x (Msg.system t2) ∈
        (P0.handle ⟨[("a", [1, 2])],
          [(1, ⟨some "a", "Alice", 1, true⟩), (2, ⟨some "a", "Bob", 1, true⟩)],
          ["a"], []⟩ 1 (Ev.inbound (Inbound.join (some "b") (some "Alice"))) 7).2 →
        t2 = jsSlice (jsOr (some "Alice") "Anonymous") 32 ++ " 加入了房间" :=
  C4_leave_old_before_capacity_part000 _ 1 (some "b") (some "Alice") 7 "a" [1, 2]
    (by decide) (by decide) (by decide) (by decide) (by decide)

/-- C4 counterexample: connection 1 switches from room a (where open peer 2
remains) to room b; the complete output is just the joined ack to 1 — peer 2
receives no departure notice, contrary to the claim. -/
theorem C4_counterexample :
    (P0.handle ⟨[("a", [1, 2])],
        [(1, ⟨some "a", "Alice", 1, true⟩), (2, ⟨some "a", "Bob", 1, true⟩)],
        ["a"], []⟩ 1 (Ev.inbound (Inbound.join (some "b") (some "Alice"))) 7).2
      = [Out.send 1 (Msg.joined "b" "Alice")] := by decide

/-- C1 (amended): both variants preserve the two-member capacity invariant
across every event handler, and a join for a room that already has 2 members
from a connection that is not itself one of those members is always answered
with a room_full error followed by a close with code 1008 (for part_000 the
truncated id must also be nonempty, else invalid_room fires first; a member
rejoining its own full room is readmitted there, see the counterexample). -/
theorem C1_capacity_and_full_rejection :
    (∀ (s : SJS.State) (c : CId) (e : Ev) (now : Nat),
        RoomCap2 s.rooms → RoomCap2 (SJS.handle s c e now).1.rooms) ∧
    (∀ (p : P0.State) (c : CId) (e : Ev) (now : Nat),
        RoomCap2 p.rooms → RoomCap2 (P0.handle p c e now).1.rooms) ∧
    (∀ (s : SJS.State) (c : CId) (room name : Option String) (now : Nat)
        (set0 : List CId),
        alGet s.rooms (jsSlice (jsOr room "") 64) = some set0 → 2 ≤ set0.length →
        (SJS.handle s c (Ev.inbound (Inbound.join room name)) now).2
          = [Out.send c (Msg.error "room_full"), Out.close c 1008 "Room full"]) ∧
    (∀ (p : P0.State) (c : CId) (room name : Option String) (now : Nat)
        (set0 : List CId),
        jsSlice (jsOr room "") 64 ≠ "" →
        connRoom p.conns c ≠ some (jsSlice (jsOr room "") 64) →
        alGet p.rooms (jsSlice (jsOr room "") 64) = some set0 → 2 ≤ set0.length →
        (P0.handle p c (Ev.inbound (Inbound.join room name)) now).2
          = [Out.send c (Msg.error "room_full"), Out.close c 1008 "Room full"]) := by
  refine ⟨SJS.cap2_handle_sjs, P0.cap2_handle, ?_, ?_⟩
  · intro s c room name now set0 hget hlen
    show (SJS.joinStep s c room name).2 = _
    unfold SJS.joinStep
    simp only []
    have he : ensureRoom s.rooms (jsSlice (jsOr room "") 64) = s.rooms := by
      unfold ensureRoom
      rw [hget]
      rfl
    rw [he, hget]
    simp [hlen]
  · intro p c room name now set0 hrid hcr hget hlen
    show (P0.joinStep p c room name now).2 = _
    unfold P0.joinStep
    simp only []
    have hmo : ((alGet p.conns c).getD defMeta).room
        ≠ some (jsSlice (jsOr room "") 64) := by
      rw [← connRoom_eq]
      exact hcr
    have hl : alGet (leaveOld p.rooms ((alGet p.conns c).getD defMeta).room c)
        (jsSlice (jsOr room "") 64) = some set0 := by
      rw [alGet_leaveOld_ne _ _ _ _ hmo]
      exact hget
    have he : ensureRoom (leaveOld p.rooms ((alGet p.conns c).getD defMeta).room c)
        (jsSlice (jsOr room "") 64)
        = leaveOld p.rooms ((alGet p.conns c).getD defMeta).room c := by
      unfold ensureRoom
      rw [hl]
      rfl
    rw [if_neg hrid, he, hl]
    simp [hlen]

/-- C1 witness: the capacity invariant holds after a join on the empty
registry, and a third connection joining the full room b in part_000 is
rejected with room_full and closed with 1008. -/
theorem C1_witness :
    RoomCap2 ((SJS.handle ⟨[], []⟩ 3
        (Ev.inbound (Inbound.join (some "r") none)) 0).1.rooms) ∧
    (P0.handle ⟨[("b", [2, 3])], [], ["b"], []⟩ 1
        (Ev.inbound (Inbound.join (some "b") none)) 0).2
      = [Out.send 1 (Msg.error "room_full"), Out.close 1 1008 "Room full"] := by
  constructor
  · exact C1_capacity_and_full_rejection.1 ⟨[], []⟩ 3
      (Ev.inbound (Inbound.join (some "r") none)) 0 (fun r set h => nomatch h)
  · exact C1_capacity_and_full_rejection.2.2.2 ⟨[("b", [2, 3])], [], ["b"], []⟩ 1
      (some "b") none 0 [2, 3] (by decide) (by decide) (by decide) (by decide)

/-- C1 counterexample: room r already has its 2 members (1 and 2), yet the
join event from member 1 for room r is answered with a joined ack and a join
notice — not room_full, and the connection is not closed — because part_000
first removes the joiner from its old room (r itself) before the capacity
check. -/
theorem C1_counterexample :
    (P0.handle ⟨[("r", [1, 2])],
        [(1, ⟨some "r", "Alice", 1, true⟩), (2, ⟨some "r", "Bob", 1, true⟩)],
        ["r"], [("r", 5)]⟩ 1
      (Ev.inbound (Inbound.join (some "r") (some "Alice"))) 9).2
      = [Out.send 1 (Msg.joined "r" "Alice"), Out.send 2 (Msg.system "Alice 加入了房间")] := by
  decide

/-- C5 (amended): processing a msg event delivers nothing and leaves the
state unchanged when the connection's room reference is unset — or, in
either variant, when it is the empty string, a state reachable only through
server.js's unchecked empty-id join — and likewise when the trimmed text is
empty or longer than 2000 characters.  In every other case the chat payload
(sender's name, trimmed text, the current server time) is sent to the sender
exactly once and broadcast to the other room occupants, of which there is at
most one when the room respects the two-member capacity; part_000
additionally refreshes the room's activity timestamp but changes neither the
room map nor the socket table. -/
theorem C5_msg_delivery :
    (∀ (s : SJS.State) (c : CId) (t : Option String) (now : Nat),
        (connRoom s.conns c = none ∨ connRoom s.conns c = some "") →
        SJS.handle s c (Ev.inbound (Inbound.msg t)) now = (s, [])) ∧
    (∀ (s : SJS.State) (c : CId) (t : Option String) (now : Nat) (r : String),
        connRoom s.conns c = some r → r ≠ "" →
        (jsTrim (jsOr t "") = "" ∨ 2000 < (jsTrim (jsOr t "")).length) →
        SJS.handle s c (Ev.inbound (Inbound.msg t)) now = (s, [])) ∧
    (∀ (s : SJS.State) (c : CId) (t : Option String) (now : Nat) (r : String)
        (set : List CId),
        connRoom s.conns c = some r → r ≠ "" →
        jsTrim (jsOr t "") ≠ "" → (jsTrim (jsOr t "")).length ≤ 2000 →
        alGet s.rooms r = some set → c ∈ set → set.length ≤ 2 →
        (SJS.handle s c (Ev.inbound (Inbound.msg t)) now).1 = s ∧
        (SJS.handle s c (Ev.inbound (Inbound.msg t)) now).2
          = Out.send c (Msg.chat ((alGet s.conns c).getD defMeta).name
                (jsTrim (jsOr t "")) now)
            :: broadcast s.conns s.rooms r
                (Msg.chat ((alGet s.conns c).getD defMeta).name (jsTrim (jsOr t "")) now)
                (some c) ∧
        (SJS.handle s c (Ev.inbound (Inbound.msg t)) now).2.count
            (Out.send c (Msg.chat ((alGet s.conns c).getD defMeta).name
                (jsTrim (jsOr t "")) now)) = 1 ∧
        (SJS.handle s c (Ev.inbound (Inbound.msg t)) now).2.length ≤ 2) ∧
    (∀ (p : P0.State) (c : CId) (t : Option String) (now : Nat),
        (connRoom p.conns c = none ∨ connRoom p.conns c = some "") →
        P0.handle p c (Ev.inbound (Inbound.msg t)) now = (p, [])) ∧
    (∀ (p : P0.State) (c : CId) (t : Option String) (now : Nat) (r : String),
        connRoom p.conns c = some r → r ≠ "" →
        (jsTrim (jsOr t "") = "" ∨ 2000 < (jsTrim (jsOr t "")).length) →
        P0.handle p c (Ev.inbound (Inbound.msg t)) now = (p, [])) ∧
    (∀ (p : P0.State) (c : CId) (t : Option String) (now : Nat) (r : String)
        (set : List CId),
        connRoom p.conns c = some r → r ≠ "" →
        jsTrim (jsOr t "") ≠ "" → (jsTrim (jsOr t "")).length ≤ 2000 →
        alGet p.rooms r = some set → c ∈ set → set.length ≤ 2 →
        (P0.handle p c (Ev.inbound (Inbound.msg t)) now).1.rooms = p.rooms ∧
        (P0.handle p c (Ev.inbound (Inbound.msg t)) now).1.conns = p.conns ∧
        (P0.handle p c (Ev.inbound (Inbound.msg t)) now).2
          = Out.send c (Msg.chat ((alGet p.conns c).getD defMeta).name
                (jsTrim (jsOr t "")) now)
            :: broadcast p.conns p.rooms r
                (Msg.chat ((alGet p.conns c).getD defMeta).name (jsTrim (jsOr t "")) now)
                (some c) ∧
        (P0.handle p c (Ev.inbound (Inbound.msg t)) now).2.count
            (Out.send c (Msg.chat ((alGet p.conns c).getD defMeta).name
                (jsTrim (jsOr t "")) now)) = 1 ∧
        (P0.handle p c (Ev.inbound (Inbound.msg t)) now).2.length ≤ 2) := by
  refine ⟨?_, ?_, ?_, ?_, ?_, ?_⟩
  · intro s c t now hu
    show SJS.msgStep s c t now = (s, [])
    unfold SJS.msgStep
    simp only []
    rcases hu with h | h
    · rw [show ((alGet s.conns c).getD defMeta).room = none by rw [← connRoom_eq]; exact h]
    · rw [show ((alGet s.conns c).getD defMeta).room = some "" by rw [← connRoom_eq]; exact h]
      simp
  · intro s c t now r hj hre ht
    show SJS.msgStep s c t now = (s, [])
    unfold SJS.msgStep
    simp only []
    rw [show ((alGet s.conns c).getD defMeta).room = some r by rw [← connRoom_eq]; exact hj]
    simp [hre, ht]
  · intro s c t now r set hj hre htne hlen hget hc hcap
    have hcond : ¬(jsTrim (jsOr t "") = "" ∨ 2000 < (jsTrim (jsOr t "")).length) := by
      rintro (h1 | h2)
      · exact htne h1
      · omega
    have hred : SJS.handle s c (Ev.inbound (Inbound.msg t)) now
        = (s, Out.send c (Msg.chat ((alGet s.conns c).getD defMeta).name
              (jsTrim (jsOr t "")) now)
            :: broadcast s.conns s.rooms r
              (Msg.chat ((alGet s.conns c).getD defMeta).name (jsTrim (jsOr t "")) now)
              (some c)) := by
      show SJS.msgStep s c t now = _
      unfold SJS.msgStep
      simp only []
      rw [show ((alGet s.conns c).getD defMeta).room = some r by rw [← connRoom_eq]; exact hj]
      simp [hre, hcond]
    rw [hred]
    refine ⟨rfl, rfl, ?_, ?_⟩
    · rw [List.count_cons_self,
        List.count_eq_zero.mpr send_self_not_mem_broadcast]
    · rw [List.length_cons]
      have hb := @length_broadcast_le_one s.conns s.rooms r
        (Msg.chat ((alGet s.conns c).getD defMeta).name (jsTrim (jsOr t "")) now)
        c set hget hc hcap
      omega
  · intro p c t now hu
    show P0.msgStep p c t now = (p, [])
    unfold P0.msgStep
    simp only []
    rcases hu with h | h
    · rw [show ((alGet p.conns c).getD defMeta).room = none by rw [← connRoom_eq]; exact h]
    · rw [show ((alGet p.conns c).getD defMeta).room = some "" by rw [← connRoom_eq]; exact h]
      simp
  · intro p c t now r hj hre ht
    show P0.msgStep p c t now = (p, [])
    unfold P0.msgStep
    simp only []
    rw [show ((alGet p.conns c).getD defMeta).room = some r by rw [← connRoom_eq]; exact hj]
    simp [hre, ht]
  · intro p c t now r set hj hre htne hlen hget hc hcap
    have hcond : ¬(jsTrim (jsOr t "") = "" ∨ 2000 < (jsTrim (jsOr t "")).length) := by
      rintro (h1 | h2)
      · exact htne h1
      · omega
    have hred : P0.handle p c (Ev.inbound (Inbound.msg t)) now
        = ({ p with roomUpdated := P0.touch p.roomUpdated r now },
           Out.send c (Msg.chat ((alGet p.conns c).getD defMeta).name
              (jsTrim (jsOr t "")) now)
            :: broadcast p.conns p.rooms r
              (Msg.chat ((alGet p.conns c).getD defMeta).name (jsTrim (jsOr t "")) now)
              (some c)) := by
      show P0.msgStep p c t now = _
      unfold P0.msgStep
      simp only []
      rw [show ((alGet p.conns c).getD defMeta).room = some r by rw [← connRoom_eq]; exact hj]
      simp [hre, hcond]
    rw [hred]
    refine ⟨rfl, rfl, rfl, ?_, ?_⟩
    · rw [List.count_cons_self,
        List.count_eq_zero.mpr send_self_not_mem_broadcast]
    · rw [List.length_cons]
      have hb := @length_broadcast_le_one p.conns p.rooms r
        (Msg.chat ((alGet p.conns c).getD defMeta).name (jsTrim (jsOr t "")) now)
        c set hget hc hcap
      omega

/-- C5 witness: a valid msg from Alice in the two-member room r is echoed
exactly once and the whole delivery is at most two sends. -/
theorem C5_witness :
    (SJS.handle ⟨[("r", [1, 2])],
        [(1, ⟨some "r", "Alice", 1, true⟩), (2, ⟨some "r", "Bob", 1, true⟩)]⟩ 1
        (Ev.inbound (Inbound.msg (some "  hi  "))) 42).1
      = ⟨[("r", [1, 2])],
         [(1, ⟨some "r", "Alice", 1, true⟩), (2, ⟨some "r", "Bob", 1, true⟩)]⟩ ∧
    (SJS.handle ⟨[("r", [1, 2])],
        [(1, ⟨some "r", "Alice", 1, true⟩), (2, ⟨some "r", "Bob", 1, true⟩)]⟩ 1
        (Ev.inbound (Inbound.msg (some "  hi  "))) 42).2
      = Out.send 1 (Msg.chat ((alGet [(1, (⟨some "r", "Alice", 1, true⟩ : Conn)),
            (2, ⟨some "r", "Bob", 1, true⟩)] 1).getD defMeta).name
            (jsTrim (jsOr (some "  hi  ") "")) 42)
        :: broadcast [(1, ⟨some "r", "Alice", 1, true⟩), (2, ⟨some "r", "Bob", 1, true⟩)]
            [("r", [1, 2])] "r"
            (Msg.chat ((alGet [(1, (⟨some "r", "Alice", 1, true⟩ : Conn)),
              (2, ⟨some "r", "Bob", 1, true⟩)] 1).getD defMeta).name
              (jsTrim (jsOr (some "  hi  ") "")) 42) (some 1) ∧
    (SJS.handle ⟨[("r", [1, 2])],
        [(1, ⟨some "r", "Alice", 1, true⟩), (2, ⟨some "r", "Bob", 1, true⟩)]⟩ 1
        (Ev.inbound (Inbound.msg (some "  hi  "))) 42).2.count
        (Out.send 1 (Msg.chat ((alGet [(1, (⟨some "r", "Alice", 1, true⟩ : Conn)),
            (2, ⟨some "r", "Bob", 1, true⟩)] 1).getD defMeta).name
            (jsTrim (jsOr (some "  hi  ") "")) 42)) = 1 ∧
    (SJS.handle ⟨[("r", [1, 2])],
        [(1, ⟨some "r", "Alice", 1, true⟩), (2, ⟨some "r", "Bob", 1, true⟩)]⟩ 1
        (Ev.inbound (Inbound.msg (some "  hi  "))) 42).2.length ≤ 2 :=
  C5_msg_delivery.2.2.1 ⟨[("r", [1, 2])],
      [(1, ⟨some "r", "Alice", 1, true⟩), (2, ⟨some "r", "Bob", 1, true⟩)]⟩ 1
    (some "  hi  ") 42 "r" [1, 2] (by decide) (by decide) (by decide) (by decide)
    (by decide) (by decide) (by decide)

/-- C5 counterexample: socket 0 is a member of the room it was admitted to
(the empty-id room, reachable through server.js's unchecked join), so it is
Joined rather than Unjoined, and the text is valid — yet the msg event
delivers nothing at all, against the claim's "in every other case" clause. -/
theorem C5_counterexample :
    alGet ([("", [0])] : List (String × List CId)) "" = some [0]
    ∧ connRoom [(0, (⟨some "", "Anonymous", 1, true⟩ : Conn))] 0 = some ""
    ∧ SJS.handle ⟨[("", [0])], [(0, ⟨some "", "Anonymous", 1, true⟩)]⟩ 0
        (Ev.inbound (Inbound.msg (some "hi"))) 5
      = (⟨[("", [0])], [(0, ⟨some "", "Anonymous", 1, true⟩)]⟩, []) := by
  decide

/-- C6: in both variants, when the transport of a joined connection closes
and one open peer remains in its room, the handler's entire output is the
single system departure notice to that peer (exactly one notice), and the
peer remains the room's only member; when no peer remains, nothing is sent,
the room disappears from the active map, and — in part_000, the variant with
historical tracking — the allRooms record is untouched, so the id stays in
the all scope. -/
theorem C6_close_departure :
    (∀ (p : P0.State) (c : CId) (now : Nat) (r : String) (set0 : List CId)
        (q : CId) (kq : Conn),
        connRoom p.conns c = some r → r ≠ "" → alGet p.rooms r = some set0 →
        jsSetDel set0 c = [q] → alGet p.conns q = some kq → kq.ready = 1 →
        (P0.handle p c Ev.close now).2
          = [Out.send q (Msg.system (((alGet p.conns c).getD defMeta).name
              ++ " 离开了房间"))]
        ∧ alGet (P0.handle p c Ev.close now).1.rooms r = some [q]) ∧
    (∀ (p : P0.State) (c : CId) (now : Nat) (r : String) (set0 : List CId),
        connRoom p.conns c = some r → r ≠ "" → alGet p.rooms r = some set0 →
        jsSetDel set0 c = [] →
        (P0.handle p c Ev.close now).2 = []
        ∧ alGet (P0.handle p c Ev.close now).1.rooms r = none
        ∧ (P0.handle p c Ev.close now).1.allRooms = p.allRooms) ∧
    (∀ (s : SJS.State) (c : CId) (now : Nat) (r : String) (set0 : List CId)
        (q : CId) (kq : Conn),
        connRoom s.conns c = some r → r ≠ "" → alGet s.rooms r = some set0 →
        jsSetDel set0 c = [q] → alGet s.conns q = some kq → kq.ready = 1 →
        (SJS.handle s c Ev.close now).2
          = [Out.send q (Msg.system (((alGet s.conns c).getD defMeta).name
              ++ " 离开了房间"))]
        ∧ alGet (SJS.handle s c Ev.close now).1.rooms r = some [q]) ∧
    (∀ (s : SJS.State) (c : CId) (now : Nat) (r : String) (set0 : List CId),
        connRoom s.conns c = some r → r ≠ "" → alGet s.rooms r = some set0 →
        jsSetDel set0 c = [] →
        (SJS.handle s c Ev.close now).2 = []
        ∧ alGet (SJS.handle s c Ev.close now).1.rooms r = none) := by
  refine ⟨?_, ?_, ?_, ?_⟩
  · intro p c now r set0 q kq hj hre hget hdel hq hready
    have hm0 : ((alGet p.conns c).getD defMeta).room = some r := by
      rw [← connRoom_eq]; exact hj
    have hbro : broadcast p.conns (alSet p.rooms r [q]) r
        (Msg.system (((alGet p.conns c).getD defMeta).name ++ " 离开了房间")) none
        = [Out.send q (Msg.system (((alGet p.conns c).getD defMeta).name
            ++ " 离开了房间"))] := by
      unfold broadcast
      rw [alGet_alSet_self]
      simp [sendTo, hq, hready]
    have hred : P0.closeStep p c now
        = ({ p with rooms := alSet p.rooms r [q], roomUpdated := P0.touch p.roomUpdated r now },
           [Out.send q (Msg.system (((alGet p.conns c).getD defMeta).name
              ++ " 离开了房间"))]) := by
      unfold P0.closeStep
      simp only []
      rw [hm0]
      simp only [hre, if_neg, hget, hdel]
      simp [hbro, hre, hdel]
    constructor
    · show (P0.closeStep p c now).2 = _
      rw [hred]
    · show alGet (P0.closeStep p c now).1.rooms r = some [q]
      rw [hred]
      exact alGet_alSet_self _ _ _
  · intro p c now r set0 hj hre hget hdel
    have hm0 : ((alGet p.conns c).getD defMeta).room = some r := by
      rw [← connRoom_eq]; exact hj
    have hred : P0.closeStep p c now
        = ({ p with rooms := alDel p.rooms r, roomUpdated := P0.touch p.roomUpdated r now }, []) := by
      unfold P0.closeStep
      simp only []
      rw [hm0]
      simp [hre, hget, hdel]
    refine ⟨?_, ?_, ?_⟩
    · show (P0.closeStep p c now).2 = []
      rw [hred]
    · show alGet (P0.closeStep p c now).1.rooms r = none
      rw [hred]
      exact alGet_alDel_self _ _
    · show (P0.closeStep p c now).1.allRooms = p.allRooms
      rw [hred]
  · intro s c now r set0 q kq hj hre hget hdel hq hready
    have hm0 : ((alGet s.conns c).getD defMeta).room = some r := by
      rw [← connRoom_eq]; exact hj
    have hbro : broadcast s.conns (alSet s.rooms r [q]) r
        (Msg.system (((alGet s.conns c).getD defMeta).name ++ " 离开了房间")) none
        = [Out.send q (Msg.system (((alGet s.conns c).getD defMeta).name
            ++ " 离开了房间"))] := by
      unfold broadcast
      rw [alGet_alSet_self]
      simp [sendTo, hq, hready]
    have hred : SJS.closeStep s c
        = ({ s with rooms := alSet s.rooms r [q] },
           [Out.send q (Msg.system (((alGet s.conns c).getD defMeta).name
              ++ " 离开了房间"))]) := by
      unfold SJS.closeStep
      simp only []
      rw [hm0]
      simp [hbro, hre, hget, hdel]
    constructor
    · show (SJS.closeStep s c).2 = _
      rw [hred]
    · show alGet (SJS.closeStep s c).1.rooms r = some [q]
      rw [hred]
      exact alGet_alSet_self _ _ _
  · intro s c now r set0 hj hre hget hdel
    have hm0 : ((alGet s.conns c).getD defMeta).room = some r := by
      rw [← connRoom_eq]; exact hj
    have hred : SJS.closeStep s c = ({ s with rooms := alDel s.rooms r }, []) := by
      unfold SJS.closeStep
      simp only []
      rw [hm0]
      simp [hre, hget, hdel]
    constructor
    · show (SJS.closeStep s c).2 = []
      rw [hred]
    · show alGet (SJS.closeStep s c).1.rooms r = none
      rw [hred]
      exact alGet_alDel_self _ _

/-- C6 witness: closing Alice in room a leaves Bob alone with exactly one
departure notice; closing the sole member of room b retires it from the
active map while allRooms keeps the id. -/
theorem C6_witness :
    ((P0.handle ⟨[("a", [1, 2])],
        [(1, ⟨some "a", "Alice", 1, true⟩), (2, ⟨some "a", "Bob", 1, true⟩)],
        ["a"], []⟩ 1 Ev.close 9).2
      = [Out.send 2 (Msg.system (((alGet [(1, (⟨some "a", "Alice", 1, true⟩ : Conn)),
          (2, ⟨some "a", "Bob", 1, true⟩)] 1).getD defMeta).name ++ " 离开了房间"))]
    ∧ alGet (P0.handle ⟨[("a", [1, 2])],
        [(1, ⟨some "a", "Alice", 1, true⟩), (2, ⟨some "a", "Bob", 1, true⟩)],
        ["a"], []⟩ 1 Ev.close 9).1.rooms "a" = some [2])
    ∧ ((P0.handle ⟨[("b", [7])], [(7, ⟨some "b", "Eve", 1, true⟩)], ["b"], []⟩ 7
        Ev.close 9).2 = []
    ∧ alGet (P0.handle ⟨[("b", [7])], [(7, ⟨some "b", "Eve", 1, true⟩)], ["b"], []⟩ 7
        Ev.close 9).1.rooms "b" = none
    ∧ (P0.handle ⟨[("b", [7])], [(7, ⟨some "b", "Eve", 1, true⟩)], ["b"], []⟩ 7
        Ev.close 9).1.allRooms = ["b"]) := by
  constructor
  · exact C6_close_departure.1 ⟨[("a", [1, 2])],
      [(1, ⟨some "a", "Alice", 1, true⟩), (2, ⟨some "a", "Bob", 1, true⟩)], ["a"], []⟩
      1 9 "a" [1, 2] 2 ⟨some "a", "Bob", 1, true⟩ (by decide) (by decide) (by decide)
      (by decide) (by decide) (by decide)
  · exact C6_close_departure.2.1 ⟨[("b", [7])], [(7, ⟨some "b", "Eve", 1, true⟩)],
      ["b"], []⟩ 7 9 "b" [7] (by decide) (by decide) (by decide) (by decide)

/-- C7 (amended): part_000's snapshot behaves as the claim says: for every
scope the returned sequence is sorted by descending last-activity (missing
timestamps count as 0 and sort last), scope all returns exactly the
historically seen ids, and scope active returns exactly the ids whose member
set is nonempty.  The server.js variant has no scope parameter, no
timestamps and no historical record (see the counterexample). -/
theorem C7_snapshot_part000 :
    (∀ (s : P0.State) (scope : Option String),
        (P0.snapshot s scope).Pairwise
          (fun a b => P0.activityKey s.roomUpdated b ≤ P0.activityKey s.roomUpdated a)) ∧
    (∀ (s : P0.State) (x : String),
        x ∈ P0.snapshot s (some "all") ↔ x ∈ s.allRooms) ∧
    (∀ (s : P0.State) (x : String),
        x ∈ P0.snapshot s (some "active") ↔ ∃ set, (x, set) ∈ s.rooms ∧ set ≠ []) := by
  refine ⟨?_, ?_, ?_⟩
  · intro s scope
    unfold P0.snapshot
    simp only []
    refine List.Pairwise.imp ?_ (List.sorted_mergeSort ?_ ?_ _)
    · intro a b hab
      exact of_decide_eq_true hab
    · intro a b c h1 h2
      exact decide_eq_true (le_trans (of_decide_eq_true h2) (of_decide_eq_true h1))
    · intro a b
      rcases le_total (P0.activityKey s.roomUpdated b) (P0.activityKey s.roomUpdated a)
        with h | h
      · simp [h]
      · simp [h]
  · intro s x
    unfold P0.snapshot
    simp only []
    rw [List.mem_mergeSort]
    rw [show jsOr (some "all") "active" = "all" from by decide]
    rw [if_pos rfl]
  · intro s x
    unfold P0.snapshot
    simp only []
    rw [List.mem_mergeSort]
    rw [show jsOr (some "active") "active" = "active" from by decide]
    rw [if_neg (by decide : ¬("active" = "all"))]
    simp only [List.mem_map, List.mem_filter]
    constructor
    · rintro ⟨⟨a, b⟩, ⟨hmem, hne⟩, heq⟩
      refine ⟨b, ?_, of_decide_eq_true hne⟩
      rw [← heq]
      exact hmem
    · rintro ⟨set, hmem, hne⟩
      exact ⟨(x, set), ⟨hmem, decide_eq_true hne⟩, rfl⟩

/-- C7 counterexample: in server.js, room a is joined during the process
lifetime (the joined ack is emitted), but after its only occupant closes,
the room-listing query — which ignores any scope selector and keeps no
historical record — returns the empty list, so no scope returns "every room
id ever joined". -/
theorem C7_counterexample :
    (SJS.handle (SJS.handle SJS.init 1 Ev.connect 0).1 1
        (Ev.inbound (Inbound.join (some "a") none)) 0).2
      = [Out.send 1 (Msg.joined "a" "Anonymous")]
    ∧ SJS.apiRooms (SJS.handle (SJS.handle (SJS.handle SJS.init 1 Ev.connect 0).1 1
        (Ev.inbound (Inbound.join (some "a") none)) 0).1 1 Ev.close 0).1 = [] := by
  decide

/-- C8: on a heartbeat tick, a tracked connection whose liveness flag is
false is terminated and not pinged (and leaves the tracked set), every other
connection has its flag set to false and is sent a ping, a pong sets the
flag back to true, and two consecutive ticks with no pong in between empty
the tracked set — every silent connection is reclaimed by the end of the
second following tick. -/
theorem C8_heartbeat :
    (∀ (clients : List (CId × Conn)) (c : CId) (k : Conn),
        (clients.map Prod.fst).Nodup → (c, k) ∈ clients → k.isAlive = false →
        Out.terminate c ∈ (hbTick clients).2 ∧ Out.ping c ∉ (hbTick clients).2 ∧
          ∀ k2, (c, k2) ∉ (hbTick clients).1) ∧
    (∀ (clients : List (CId × Conn)) (c : CId) (k : Conn),
        (c, k) ∈ clients → k.isAlive = true →
        Out.ping c ∈ (hbTick clients).2 ∧
          (c, { k with isAlive := false }) ∈ (hbTick clients).1) ∧
    (∀ (clients : List (CId × Conn)) (c : CId) (k : Conn),
        (c, k) ∈ clients → (c, { k with isAlive := true }) ∈ hbPong clients c) ∧
    (∀ (clients : List (CId × Conn)), (hbTick (hbTick clients).1).1 = []) := by
  refine ⟨?_, ?_, ?_, hbTick_twice_empty⟩
  · intro clients c k hnd hmem hal
    refine ⟨?_, ?_, ?_⟩
    · exact List.mem_map.mpr ⟨(c, k), hmem, by rw [hal]; rfl⟩
    · intro hping
      obtain ⟨⟨c2, k2⟩, hmem2, heq⟩ := List.mem_map.mp hping
      cases hal2 : k2.isAlive
      · rw [hal2] at heq
        simp at heq
      · rw [hal2] at heq
        simp only [if_true] at heq
        injection heq with heq
        subst heq
        have := nodup_keys_eq hnd hmem hmem2
        rw [← this] at hal2
        rw [hal] at hal2
        cases hal2
    · intro k2 hk2
      obtain ⟨⟨c3, k3⟩, hmem3, hcond⟩ := List.mem_filterMap.mp hk2
      cases hal3 : k3.isAlive
      · rw [hal3] at hcond
        simp at hcond
      · rw [hal3] at hcond
        simp only [if_true, Option.some.injEq, Prod.mk.injEq] at hcond
        obtain ⟨h1, h2⟩ := hcond
        subst h1
        have := nodup_keys_eq hnd hmem hmem3
        rw [← this] at hal3
        rw [hal] at hal3
        cases hal3
  · intro clients c k hmem hal
    constructor
    · exact List.mem_map.mpr ⟨(c, k), hmem, by rw [hal]; rfl⟩
    · exact List.mem_filterMap.mpr ⟨(c, k), hmem, by rw [hal]; rfl⟩
  · intro clients c k hmem
    exact List.mem_map.mpr ⟨(c, k), hmem, by simp⟩

/-- C8 witness: on a tick over two clients, the dead one (flag false) is
terminated and dropped, the live one is pinged with its flag cleared, a pong
restores the flag, and two silent ticks clear the whole set. -/
theorem C8_witness :
    (Out.terminate 2 ∈ (hbTick [(1, (⟨none, "Anonymous", 1, true⟩ : Conn)),
        (2, ⟨none, "Anonymous", 1, false⟩)]).2
      ∧ Out.ping 2 ∉ (hbTick [(1, (⟨none, "Anonymous", 1, true⟩ : Conn)),
        (2, ⟨none, "Anonymous", 1, false⟩)]).2
      ∧ ∀ k2, (2, k2) ∉ (hbTick [(1, (⟨none, "Anonymous", 1, true⟩ : Conn)),
        (2, ⟨none, "Anonymous", 1, false⟩)]).1)
    ∧ (Out.ping 1 ∈ (hbTick [(1, (⟨none, "Anonymous", 1, true⟩ : Conn)),
        (2, ⟨none, "Anonymous", 1, false⟩)]).2
      ∧ (1, { (⟨none, "Anonymous", 1, true⟩ : Conn) with isAlive := false })
          ∈ (hbTick [(1, (⟨none, "Anonymous", 1, true⟩ : Conn)),
            (2, ⟨none, "Anonymous", 1, false⟩)]).1)
    ∧ (1, { (⟨none, "Anonymous", 1, false⟩ : Conn) with isAlive := true })
        ∈ hbPong [(1, (⟨none, "Anonymous", 1, false⟩ : Conn))] 1
    ∧ (hbTick (hbTick [(1, (⟨none, "Anonymous", 1, true⟩ : Conn))]).1).1 = [] := by
  refine ⟨?_, ?_, ?_, ?_⟩
  · exact C8_heartbeat.1 [(1, ⟨none, "Anonymous", 1, true⟩),
      (2, ⟨none, "Anonymous", 1, false⟩)] 2 ⟨none, "Anonymous", 1, false⟩
      (by decide) (by decide) (by decide)
  · exact C8_heartbeat.2.1 [(1, ⟨none, "Anonymous", 1, true⟩),
      (2, ⟨none, "Anonymous", 1, false⟩)] 1 ⟨none, "Anonymous", 1, true⟩
      (by decide) (by decide)
  · exact C8_heartbeat.2.2.1 [(1, ⟨none, "Anonymous", 1, false⟩)] 1
      ⟨none, "Anonymous", 1, false⟩ (by decide)
  · exact C8_heartbeat.2.2.2 [(1, ⟨none, "Anonymous", 1, true⟩)]

/-- C9 (amended): in part_000, the forward direction of the bidirectional
invariant — every member of a room's set has that room as its meta room
reference — together with the absence of an empty-id room is preserved by
every join, msg and transport-close handler.  The reverse direction fails
(the close handler and the full-room eviction leave a stale reference, and
in server.js even the forward direction fails via empty-id rooms; see the
counterexample). -/
theorem C9_forward_consistency_part000 (s : P0.State) (c : CId) (e : Ev) (now : Nat)
    (he : e ≠ Ev.connect)
    (h1 : Consistent1 s.rooms s.conns) (h2 : alGet s.rooms "" = none) :
    Consistent1 (P0.handle s c e now).1.rooms (P0.handle s c e now).1.conns
    ∧ alGet (P0.handle s c e now).1.rooms "" = none := by
  cases e with
  | connect => exact absurd rfl he
  | close => exact ⟨P0.cons1_closeStep s c now h1, P0.noEmpty_closeStep s c now h2⟩
  | inbound i =>
    cases i with
    | join room name =>
      exact ⟨P0.cons1_joinStep s c room name now h1 h2,
        P0.noEmpty_joinStep s c room name now h2⟩
    | msg t =>
      constructor
      · show Consistent1 (P0.msgStep s c t now).1.rooms (P0.msgStep s c t now).1.conns
        rw [P0.msgStep_rooms, P0.msgStep_conns]
        exact h1
      · show alGet (P0.msgStep s c t now).1.rooms "" = none
        rw [P0.msgStep_rooms]
        exact h2
    | other => exact ⟨h1, h2⟩

/-- C9 witness: the invariant holds after a join on the empty registry. -/
theorem C9_witness :
    Consistent1 (P0.handle P0.init 1 (Ev.inbound (Inbound.join (some "a") none)) 3).1.rooms
      (P0.handle P0.init 1 (Ev.inbound (Inbound.join (some "a") none)) 3).1.conns
    ∧ alGet (P0.handle P0.init 1 (Ev.inbound (Inbound.join (some "a") none)) 3).1.rooms ""
      = none :=
  C9_forward_consistency_part000 P0.init 1 (Ev.inbound (Inbound.join (some "a") none)) 3
    (by decide) (fun r set x hget hx => nomatch hget) rfl

/-- C9 counterexample: in server.js, after socket 0 (already admitted to the
empty-id room) joins room x, the handler has completed and socket 0 is still
a member of the empty-id room's set while its own room reference says x —
the claimed biconditional fails for an open connection. -/
theorem C9_counterexample :
    alGet (SJS.handle ⟨[("", [0])], [(0, ⟨some "", "Anonymous", 1, true⟩)]⟩ 0
        (Ev.inbound (Inbound.join (some "x") none)) 0).1.rooms "" = some [0]
    ∧ connRoom (SJS.handle ⟨[("", [0])], [(0, ⟨some "", "Anonymous", 1, true⟩)]⟩ 0
        (Ev.inbound (Inbound.join (some "x") none)) 0).1.conns 0 = some "x" := by
  decide

/-- C10 (amended): the two variants are not behaviorally equivalent (see the
counterexample: an empty-id join is admitted by server.js and rejected by
part_000), but they do agree — same outbound messages, same resulting room
map and socket table — on msg events, on transport closes, and on join
events whose truncated id is nonempty when issued by a connection with no
current room, given corresponding states. -/
theorem C10_restricted_equivalence :
    (∀ (s : SJS.State) (p : P0.State) (c : CId) (t : Option String) (now : Nat),
        s.rooms = p.rooms → s.conns = p.conns →
        (SJS.handle s c (Ev.inbound (Inbound.msg t)) now).2
            = (P0.handle p c (Ev.inbound (Inbound.msg t)) now).2
          ∧ (SJS.handle s c (Ev.inbound (Inbound.msg t)) now).1.rooms
            = (P0.handle p c (Ev.inbound (Inbound.msg t)) now).1.rooms
          ∧ (SJS.handle s c (Ev.inbound (Inbound.msg t)) now).1.conns
            = (P0.handle p c (Ev.inbound (Inbound.msg t)) now).1.conns) ∧
    (∀ (s : SJS.State) (p : P0.State) (c : CId) (now : Nat),
        s.rooms = p.rooms → s.conns = p.conns →
        (SJS.handle s c Ev.close now).2 = (P0.handle p c Ev.close now).2
          ∧ (SJS.handle s c Ev.close now).1.rooms
            = (P0.handle p c Ev.close now).1.rooms
          ∧ (SJS.handle s c Ev.close now).1.conns
            = (P0.handle p c Ev.close now).1.conns) ∧
    (∀ (s : SJS.State) (p : P0.State) (c : CId) (room name : Option String) (now : Nat),
        s.rooms = p.rooms → s.conns = p.conns →
        jsSlice (jsOr room "") 64 ≠ "" → connRoom s.conns c = none →
        (SJS.handle s c (Ev.inbound (Inbound.join room name)) now).2
            = (P0.handle p c (Ev.inbound (Inbound.join room name)) now).2
          ∧ (SJS.handle s c (Ev.inbound (Inbound.join room name)) now).1.rooms
            = (P0.handle p c (Ev.inbound (Inbound.join room name)) now).1.rooms
          ∧ (SJS.handle s c (Ev.inbound (Inbound.join room name)) now).1.conns
            = (P0.handle p c (Ev.inbound (Inbound.join room name)) now).1.conns) := by
  refine ⟨?_, ?_, ?_⟩
  · intro s p c t now hr hc
    simp only [SJS.handle, P0.handle]
    unfold SJS.msgStep P0.msgStep
    simp only []
    rw [hc, hr]
    cases hm : ((alGet p.conns c).getD defMeta).room with
    | none => exact ⟨rfl, hr, hc⟩
    | some r =>
      by_cases hre : r = ""
      · simp [hre, hr, hc]
      · by_cases ht : jsTrim (jsOr t "") = "" ∨ 2000 < (jsTrim (jsOr t "")).length
        · simp [hre, ht, hr, hc]
        · simp [hre, ht, hr, hc]
  · intro s p c now hr hc
    simp only [SJS.handle, P0.handle]
    unfold SJS.closeStep P0.closeStep
    simp only []
    rw [hc, hr]
    cases hm : ((alGet p.conns c).getD defMeta).room with
    | none => exact ⟨rfl, hr, hc⟩
    | some r =>
      by_cases hre : r = ""
      · simp [hre, hr, hc]
      · cases hg : alGet p.rooms r with
        | none => simp [hre, hg, hr, hc]
        | some set0 =>
          by_cases hd : jsSetDel set0 c = []
          · simp [hre, hg, hd, hr, hc]
          · simp [hre, hg, hd, hr, hc]
  · intro s p c room name now hr hc hrid hcr
    have hm : ((alGet p.conns c).getD defMeta).room = none := by
      rw [← hc, ← connRoom_eq]
      exact hcr
    simp only [SJS.handle, P0.handle]
    unfold SJS.joinStep P0.joinStep
    simp only []
    rw [hc, hr, hm]
    simp only [leaveOld_nullRoom]
    rw [if_neg hrid]
    simp only [alGet_ensureRoom_self, Option.getD_some]
    split_ifs <;> exact ⟨rfl, rfl, rfl⟩

/-- C10 witness: on a msg event from corresponding states the two variants
emit the same outputs and end with the same room map and socket table. -/
theorem C10_witness :
    (SJS.handle ⟨[("r", [1])], [(1, ⟨some "r", "Ann", 1, true⟩)]⟩ 1
        (Ev.inbound (Inbound.msg (some "yo"))) 4).2
      = (P0.handle ⟨[("r", [1])], [(1, ⟨some "r", "Ann", 1, true⟩)], ["r"], []⟩ 1
        (Ev.inbound (Inbound.msg (some "yo"))) 4).2
    ∧ (SJS.handle ⟨[("r", [1])], [(1, ⟨some "r", "Ann", 1, true⟩)]⟩ 1
        (Ev.inbound (Inbound.msg (some "yo"))) 4).1.rooms
      = (P0.handle ⟨[("r", [1])], [(1, ⟨some "r", "Ann", 1, true⟩)], ["r"], []⟩ 1
        (Ev.inbound (Inbound.msg (some "yo"))) 4).1.rooms
    ∧ (SJS.handle ⟨[("r", [1])], [(1, ⟨some "r", "Ann", 1, true⟩)]⟩ 1
        (Ev.inbound (Inbound.msg (some "yo"))) 4).1.conns
      = (P0.handle ⟨[("r", [1])], [(1, ⟨some "r", "Ann", 1, true⟩)], ["r"], []⟩ 1
        (Ev.inbound (Inbound.msg (some "yo"))) 4).1.conns :=
  C10_restricted_equivalence.1 ⟨[("r", [1])], [(1, ⟨some "r", "Ann", 1, true⟩)]⟩
    ⟨[("r", [1])], [(1, ⟨some "r", "Ann", 1, true⟩)], ["r"], []⟩ 1 (some "yo") 4 rfl rfl

/-- C10 counterexample: the same join event with an empty truncated room id,
from corresponding initial states, is admitted by server.js (joined ack to
room "") but rejected by part_000 (invalid_room): the outbound message
sequences differ, so the variants are not behaviorally equivalent. -/
theorem C10_counterexample :
    (SJS.handle ⟨[], [(0, defMeta)]⟩ 0 (Ev.inbound (Inbound.join (some "") none)) 0).2
      = [Out.send 0 (Msg.joined "" "Anonymous")]
    ∧ (P0.handle ⟨[], [(0, defMeta)], [], []⟩ 0
        (Ev.inbound (Inbound.join (some "") none)) 0).2
      = [Out.send 0 (Msg.error "invalid_room")] := by
  decide
